import Mathlib

/-!
Verification of the GridWorld MDP solver (Value Iteration and Policy
Iteration) implemented in `Assignment2_Web_JS/app.js`.

The JavaScript source is shallowly embedded below.  States are grid
coordinates (JS keys of the form "r,c" become pairs of integers), JS
floating-point numbers become exact rationals, the string-keyed JS
objects used for the value table and the policy tables become functions
`Coord → ℚ` / `Coord → Option Act` updated pointwise by the same loops
the source runs, and the mutable module-level run state (V, policy,
iter, lastDelta, running, piPolicy, piMode, piEvalSweepsLeft, the status
text) becomes an explicit `SolverState` record threaded through the step
functions.  The configuration sliders (gamma, slip, step reward, max
iterations) are read afresh by the source on every sweep; accordingly
every sweep-level function here takes a `Config` argument representing
the slider values at the moment of that call.
-/

set_option maxRecDepth 100000

/-- Grid coordinate: the JS key "r,c". -/
abbrev Coord := ℤ × ℤ

/-- const NROWS = 5. -/
def NROWS : ℤ := 5

/-- const NCOLS = 5. -/
def NCOLS : ℤ := 5

/-- const WALLS = new Set(["1,1", "1,2", "2,2"]). -/
def isWall (k : Coord) : Bool := k = (1, 1) || k = (1, 2) || k = (2, 2)

/-- const TERMINALS = { "0,4": 10, "4,4": -10 }: membership test
(`isTerminal` in the source). -/
def isTerminal (k : Coord) : Bool := k = (0, 4) || k = (4, 4)

/-- The reward stored in the TERMINALS map.  Only ever read at a
terminal key (the source guards every access with `isTerminal`); the
value at other keys is irrelevant. -/
def terminalRewardMap (k : Coord) : ℚ := if k = (0, 4) then 10 else -10

/-- const ACTIONS = ["U","D","L","R"]. -/
inductive Act where
  | U : Act
  | D : Act
  | L : Act
  | R : Act
deriving DecidableEq, Repr

/-- The fixed enumeration order of the action list. -/
def ACTIONS : List Act := [Act.U, Act.D, Act.L, Act.R]

/-- const MOVE = {U:[-1,0], D:[1,0], L:[0,-1], R:[0,1]}. -/
def MOVE : Act → ℤ × ℤ
  | Act.U => (-1, 0)
  | Act.D => (1, 0)
  | Act.L => (0, -1)
  | Act.R => (0, 1)

/-- function inBounds(r,c){ return r>=0 && r<NROWS && c>=0 && c<NCOLS; }. -/
def inBounds (r c : ℤ) : Bool :=
  decide (0 ≤ r) && decide (r < NROWS) && decide (0 ≤ c) && decide (c < NCOLS)

/-- function nextStateDet(r,c,a): terminal states are absorbing;
otherwise apply the action offset; bounce off the boundary and walls. -/
def nextStateDet (k : Coord) (a : Act) : Coord :=
  if isTerminal k then k
  else
    let dr := (MOVE a).1
    let dc := (MOVE a).2
    let nk : Coord := (k.1 + dr, k.2 + dc)
    if !inBounds nk.1 nk.2 then k
    else if isWall nk then k
    else nk

/-- The configuration inputs read from the DOM sliders at the moment a
function runs: gamma, slip (epsilon), step reward, max iterations. -/
structure Config where
  gamma : ℚ
  slip : ℚ
  stepReward : ℚ
  maxIters : ℤ
deriving DecidableEq, Repr

/-- function reward(stateKey): the terminal reward for terminal states,
else the step-reward slider value. -/
def reward (cfg : Config) (k : Coord) : ℚ :=
  if isTerminal k then terminalRewardMap k else cfg.stepReward

/-- One element of the list returned by `transitions`:
{p: probability, ns: next state, r: reward}. -/
structure Outcome where
  p : ℚ
  ns : Coord
  r : ℚ
deriving DecidableEq, Repr

/-- function transitions(stateKey, action): terminal states yield the
single outcome (1.0, same state, 0.0); otherwise the intended move with
probability 1-slip followed by the other three actions, each with
probability slip/3, in the ACTIONS order. -/
def transitions (cfg : Config) (k : Coord) (a : Act) : List Outcome :=
  if isTerminal k then [⟨1, k, 0⟩]
  else
    let pInt := 1 - cfg.slip
    let pOther := cfg.slip / 3
    let nsInt := nextStateDet k a
    ⟨pInt, nsInt, reward cfg nsInt⟩ ::
      (ACTIONS.filter (fun a2 => decide (a2 ≠ a))).map
        (fun a2 => let ns2 := nextStateDet k a2; ⟨pOther, ns2, reward cfg ns2⟩)

/-- function allStates(): the non-wall coordinates in row-major order. -/
def allStates : List Coord :=
  (List.range 5).flatMap fun r =>
    (List.range 5).filterMap fun c =>
      let k : Coord := ((r : ℤ), (c : ℤ))
      if isWall k then none else some k

/-- Pointwise update of a table, modelling `obj[k] = v` on a JS object. -/
def upd {α : Type} (f : Coord → α) (k : Coord) (v : α) : Coord → α :=
  fun x => if x = k then v else f x

/-- The inner accumulation `q += t.p * (t.r + gamma * V[t.ns])` over the
outcome list of (s, a), starting from `let q = 0`. -/
def qValue (cfg : Config) (V : Coord → ℚ) (s : Coord) (a : Act) : ℚ :=
  (transitions cfg s a).foldl (fun q t => q + t.p * (t.r + cfg.gamma * V t.ns)) 0

/-- The loop `let best = -1e9; for a of ACTIONS { ...; if(q > best) best = q; }`
used by the Value Iteration sweep. -/
def bestFold (q : Act → ℚ) (b0 : ℚ) : ℚ :=
  ACTIONS.foldl (fun b a => if b < q a then q a else b) b0

/-- The loop `let bestQ = -1e9; for a of ACTIONS { ...; if(q > bestQ){
bestQ = q; bestA = a; } }` used by greedy policy extraction and by the
Policy Iteration improvement sweep; `x0` is the initial bestA. -/
def argmaxFold (q : Act → ℚ) (b0 : ℚ) (x0 : Option Act) : ℚ × Option Act :=
  ACTIONS.foldl (fun bx a => if bx.1 < q a then (q a, some a) else bx) (b0, x0)

/-- function greedyPolicyFromV(): rebuilds the displayed policy table
from the current V; terminals get null, other states get the bestA of
the argmax loop (initialised to "U"). -/
def greedyPolicyFromV (cfg : Config) (V : Coord → ℚ) : Coord → Option Act :=
  allStates.foldl
    (fun pol s =>
      if isTerminal s then upd pol s none
      else upd pol s (argmaxFold (qValue cfg V s) (-1000000000) (some Act.U)).2)
    (fun _ => none)

/-- Solver run status, modelling the distinct strings written to
`statusOut.textContent` by the source. -/
inductive Status where
  | ready : Status                -- "Ready"
  | runningVIStep : Status        -- "Running VI step…"
  | runningPIStepEval : Status    -- "Running PI step (EVAL)…"
  | runningPIStepImprove : Status -- "Running PI step (IMPROVE)…"
  | convergedDelta : Status       -- "Converged (delta small)"
  | convergedPolicy : Status      -- "Converged (policy stable)"
  | piImproved : Status           -- "PI: improved, evaluating…"
  | reachedMax : Status           -- "Reached max iterations"
  | runningLoop : Status          -- "Running… (click Run again to stop)"
  | stopped : Status              -- "Stopped"
deriving DecidableEq, Repr

/-- `statusOut.textContent.includes("Converged")`, as tested by runLoop:
true exactly for the two converged strings. -/
def statusIncludesConverged : Status → Bool
  | Status.convergedDelta => true
  | Status.convergedPolicy => true
  | _ => false

/-- piMode: "EVAL" or "IMPROVE". -/
inductive PIMode where
  | EVAL : PIMode
  | IMPROVE : PIMode
deriving DecidableEq, Repr

/-- The algorithm selector `algoEl.value`: "VI" or "PI". -/
inductive Algo where
  | VI : Algo
  | PI : Algo
deriving DecidableEq, Repr

/-- The module-level mutable run state of the source: V, policy, iter,
lastDelta, running, piPolicy, piMode, piEvalSweepsLeft, plus the status
text.  Tables become total functions; the source only ever reads them at
non-wall in-bounds coordinates. -/
structure SolverState where
  V : Coord → ℚ
  policy : Coord → Option Act
  iter : ℕ
  lastDelta : ℚ
  running : Bool
  piPolicy : Coord → Option Act
  piMode : PIMode
  piEvalSweepsLeft : ℤ
  status : Status

/-- The per-state best value `let best = -1e9; ... if(q > best) best = q`
of the Value Iteration sweep. -/
def viBest (cfg : Config) (V : Coord → ℚ) (s : Coord) : ℚ :=
  bestFold (qValue cfg V s) (-1000000000)

/-- The loop body of `valueIterationSweep`: terminal states are pinned
to 0 and skipped by the delta update; other states get the best-Q value,
with every Q read from the old V, and the running delta is updated with
|newV[s] - V[s]|. -/
def viBody (cfg : Config) (V : Coord → ℚ) (nd : (Coord → ℚ) × ℚ) (s : Coord) :
    (Coord → ℚ) × ℚ :=
  if isTerminal s then (upd nd.1 s 0, nd.2)
  else (upd nd.1 s (viBest cfg V s), max nd.2 |viBest cfg V s - V s|)

/-- The loop of `valueIterationSweep`: builds newV (a copy of V updated
in place) and the sweep delta, starting from `let newV = {...V}; let
delta = 0`. -/
def viSweepLoop (cfg : Config) (V : Coord → ℚ) : (Coord → ℚ) × ℚ :=
  allStates.foldl (viBody cfg V) (V, 0)

/-- function valueIterationSweep(): V = newV; lastDelta = delta;
policy = greedyPolicyFromV() (which reads the freshly assigned V). -/
def valueIterationSweep (cfg : Config) (st : SolverState) : SolverState :=
  let nd := viSweepLoop cfg st.V
  { st with V := nd.1, lastDelta := nd.2, policy := greedyPolicyFromV cfg nd.1 }

/-- The evaluation sweep of `policyIterationStep` (piMode "EVAL"): one
policy-fixed expectation sweep from the old V.  The source reads
`piPolicy[s]` for each non-terminal state; in every reachable state that
entry is a real action (resetAll and the improvement sweep assign one to
every non-terminal state, and JavaScript would throw on a missing one),
so the `Option.getD` default is never exercised. -/
def piEvalNewV (cfg : Config) (st : SolverState) : Coord → ℚ :=
  allStates.foldl
    (fun nv s =>
      if isTerminal s then upd nv s 0
      else upd nv s (qValue cfg st.V s ((st.piPolicy s).getD Act.U)))
    st.V

/-- The loop body of the improvement sweep of `policyIterationStep`
(piMode "IMPROVE"): terminal states are skipped; otherwise piPolicy[s]
is replaced by the argmax loop's bestA (initialised to the old action)
and the `stable` flag is cleared when the action changed
(`if(bestA !== oldA) stable = false`). -/
def improveBody (cfg : Config) (V : Coord → ℚ) (ps : (Coord → Option Act) × Bool)
    (s : Coord) : (Coord → Option Act) × Bool :=
  if isTerminal s then ps
  else
    let oldA := ps.1 s
    let ba := (argmaxFold (qValue cfg V s) (-1000000000) oldA).2
    (upd ps.1 s ba, ps.2 && decide (ba = oldA))

/-- The improvement sweep of `policyIterationStep`: fold over all states
starting from the working policy and `let stable = true`. -/
def improveFold (cfg : Config) (st : SolverState) : (Coord → Option Act) × Bool :=
  allStates.foldl (improveBody cfg st.V) (st.piPolicy, true)

/-- function policyIterationStep(): one evaluation sweep when piMode is
"EVAL" (then decrement piEvalSweepsLeft and switch to "IMPROVE" when it
is ≤ 0); one improvement sweep when piMode is "IMPROVE" (then switch
back to "EVAL" with 10 sweeps, and on a stable sweep report convergence
and clear `running`). -/
def policyIterationStep (cfg : Config) (st : SolverState) : SolverState :=
  match st.piMode with
  | PIMode.EVAL =>
    let nv := piEvalNewV cfg st
    let d := allStates.foldl (fun d s => max d |nv s - st.V s|) 0
    { st with
      V := nv
      lastDelta := d
      piEvalSweepsLeft := st.piEvalSweepsLeft - 1
      piMode := if st.piEvalSweepsLeft - 1 ≤ 0 then PIMode.IMPROVE else PIMode.EVAL
      policy := st.piPolicy }
  | PIMode.IMPROVE =>
    let ps := improveFold cfg st
    { st with
      piPolicy := ps.1
      policy := ps.1
      lastDelta := 0
      piMode := PIMode.EVAL
      piEvalSweepsLeft := 10
      running := if ps.2 then false else st.running
      status := if ps.2 then Status.convergedPolicy else Status.piImproved }

/-- function resetAll(): reinitialize every table and counter.  The
source reads no configuration input here (the `Config` argument is
ignored); `initTables` gives every non-wall state value 0 and default
action "R" (null at terminals), and the PI state restarts in "EVAL" mode
with 10 sweeps. -/
def resetAll (_cfg : Config) : SolverState :=
  { V := fun _ => 0
    policy := fun k =>
      if allStates.contains k then (if isTerminal k then none else some Act.R) else none
    iter := 0
    lastDelta := 0
    running := false
    piPolicy := fun k =>
      if allStates.contains k then (if isTerminal k then none else some Act.R) else none
    piMode := PIMode.EVAL
    piEvalSweepsLeft := 10
    status := Status.ready }

/-- function doOneStep(): guarded no-op reporting "Reached max
iterations" when iter ≥ maxIters; otherwise announce the step, run the
selected engine (VI additionally reports convergence when the sweep
delta drops below 1e-4), and increment iter. -/
def doOneStep (cfg : Config) (algo : Algo) (st : SolverState) : SolverState :=
  if cfg.maxIters ≤ (st.iter : ℤ) then { st with status := Status.reachedMax }
  else
    let st0 := { st with
      status :=
        match algo with
        | Algo.VI => Status.runningVIStep
        | Algo.PI =>
          match st.piMode with
          | PIMode.EVAL => Status.runningPIStepEval
          | PIMode.IMPROVE => Status.runningPIStepImprove }
    let st1 :=
      match algo with
      | Algo.VI =>
        let st2 := valueIterationSweep cfg st0
        if st2.lastDelta < 1 / 10000 then
          { st2 with status := Status.convergedDelta, running := false }
        else st2
      | Algo.PI => policyIterationStep cfg st0
    { st1 with iter := st1.iter + 1 }

/-- The maximum of the four Q-values, written as the specification
reads: max over the four actions. -/
def maxQof (q : Act → ℚ) : ℚ :=
  max (max (max (q Act.U) (q Act.D)) (q Act.L)) (q Act.R)

/-- `maxQof` specialised to the Q-function of a state. -/
def maxQ (cfg : Config) (V : Coord → ℚ) (s : Coord) : ℚ :=
  maxQof (qValue cfg V s)

/-- The first action in the fixed enumeration order {U, D, L, R} whose
Q-value is greater than or equal to the Q-value of every other action:
the specification's tie-break rule, written from the specification. -/
def firstArgmax (q : Act → ℚ) : Act :=
  if q Act.D ≤ q Act.U ∧ q Act.L ≤ q Act.U ∧ q Act.R ≤ q Act.U then Act.U
  else if q Act.U ≤ q Act.D ∧ q Act.L ≤ q Act.D ∧ q Act.R ≤ q Act.D then Act.D
  else if q Act.U ≤ q Act.L ∧ q Act.D ≤ q Act.L ∧ q Act.R ≤ q Act.L then Act.L
  else Act.R

lemma ite_lt_eq_max (b x : ℚ) : (if b < x then x else b) = max b x := by
  rcases lt_or_le b x with h | h
  · rw [if_pos h, max_eq_right h.le]
  · rw [if_neg (not_lt.2 h), max_eq_left h]

lemma bestFold_eq (q : Act → ℚ) (b0 : ℚ) : bestFold q b0 = max b0 (maxQof q) := by
  simp only [bestFold, ACTIONS, List.foldl, ite_lt_eq_max, maxQof, max_assoc]

lemma argmaxStep_fst (q : Act → ℚ) (bx : ℚ × Option Act) (a : Act) :
    (if bx.1 < q a then (q a, some a) else bx).1 = max bx.1 (q a) := by
  rcases lt_or_le bx.1 (q a) with h | h
  · rw [if_pos h]; exact (max_eq_right h.le).symm
  · rw [if_neg (not_lt.2 h)]; exact (max_eq_left h).symm

/-- The argmax loop of the source (initial best value `b0`, initial best
action `x0`) returns the overall maximum together with the FIRST action
in enumeration order attaining it, as soon as the maximum beats the
initial best value. -/
lemma argmaxFold_eq (q : Act → ℚ) (b0 : ℚ) (x0 : Option Act)
    (h : b0 < maxQof q) :
    argmaxFold q b0 x0 = (maxQof q, some (firstArgmax q)) := by
  by_cases hU : q Act.D ≤ q Act.U ∧ q Act.L ≤ q Act.U ∧ q Act.R ≤ q Act.U
  · have hM : maxQof q = q Act.U := by
      rw [maxQof, max_eq_left hU.1, max_eq_left hU.2.1, max_eq_left hU.2.2]
    rw [hM] at h
    simp only [argmaxFold, ACTIONS, List.foldl]
    rw [if_pos (show (b0, x0).1 < q Act.U from h)]
    rw [if_neg (show ¬ (q Act.U, some Act.U).1 < q Act.D from not_lt.2 hU.1)]
    rw [if_neg (show ¬ (q Act.U, some Act.U).1 < q Act.L from not_lt.2 hU.2.1)]
    rw [if_neg (show ¬ (q Act.U, some Act.U).1 < q Act.R from not_lt.2 hU.2.2)]
    rw [hM, firstArgmax, if_pos hU]
  · by_cases hD : q Act.U ≤ q Act.D ∧ q Act.L ≤ q Act.D ∧ q Act.R ≤ q Act.D
    · have hUD : q Act.U < q Act.D := by
        rcases lt_or_le (q Act.U) (q Act.D) with h1 | h1
        · exact h1
        · exact absurd ⟨h1, hD.2.1.trans h1, hD.2.2.trans h1⟩ hU
      have hM : maxQof q = q Act.D := by
        rw [maxQof, max_eq_right hUD.le, max_eq_left hD.2.1, max_eq_left hD.2.2]
      rw [hM] at h
      simp only [argmaxFold, ACTIONS, List.foldl]
      set p1 := if (b0, x0).1 < q Act.U then (q Act.U, some Act.U) else (b0, x0) with hp1
      have hp1f : p1.1 = max b0 (q Act.U) := argmaxStep_fst q (b0, x0) Act.U
      rw [show (if p1.1 < q Act.D then (q Act.D, some Act.D) else p1) = (q Act.D, some Act.D)
        from if_pos (by rw [hp1f]; exact max_lt h hUD)]
      rw [if_neg (show ¬ (q Act.D, some Act.D).1 < q Act.L from not_lt.2 hD.2.1)]
      rw [if_neg (show ¬ (q Act.D, some Act.D).1 < q Act.R from not_lt.2 hD.2.2)]
      rw [hM, firstArgmax, if_neg hU, if_pos hD]
    · by_cases hL : q Act.U ≤ q Act.L ∧ q Act.D ≤ q Act.L ∧ q Act.R ≤ q Act.L
      · have hUL : q Act.U < q Act.L := by
          rcases lt_or_le (q Act.U) (q Act.L) with h1 | h1
          · exact h1
          · exact absurd ⟨hL.2.1.trans h1, h1, hL.2.2.trans h1⟩ hU
        have hDL : q Act.D < q Act.L := by
          rcases lt_or_le (q Act.D) (q Act.L) with h1 | h1
          · exact h1
          · exact absurd ⟨hL.1.trans h1, h1, hL.2.2.trans h1⟩ hD
        have hM : maxQof q = q Act.L := by
          rw [maxQof, max_eq_right (max_le hUL.le hDL.le), max_eq_left hL.2.2]
        rw [hM] at h
        simp only [argmaxFold, ACTIONS, List.foldl]
        set p1 := if (b0, x0).1 < q Act.U then (q Act.U, some Act.U) else (b0, x0) with hp1
        have hp1f : p1.1 = max b0 (q Act.U) := argmaxStep_fst q (b0, x0) Act.U
        set p2 := if p1.1 < q Act.D then (q Act.D, some Act.D) else p1 with hp2
        have hp2f : p2.1 = max p1.1 (q Act.D) := argmaxStep_fst q p1 Act.D
        rw [show (if p2.1 < q Act.L then (q Act.L, some Act.L) else p2) = (q Act.L, some Act.L)
          from if_pos (by rw [hp2f, hp1f]; exact max_lt (max_lt h hUL) hDL)]
        rw [if_neg (show ¬ (q Act.L, some Act.L).1 < q Act.R from not_lt.2 hL.2.2)]
        rw [hM, firstArgmax, if_neg hU, if_neg hD, if_pos hL]
      · have hR : q Act.U ≤ q Act.R ∧ q Act.D ≤ q Act.R ∧ q Act.L ≤ q Act.R := by
          rcases le_total (q Act.U) (q Act.D) with h1 | h1
          · rcases le_total (q Act.D) (q Act.L) with h2 | h2
            · have h3 : ¬ q Act.R ≤ q Act.L := fun hc => hL ⟨h1.trans h2, h2, hc⟩
              have h4 := not_le.1 h3
              exact ⟨(h1.trans h2).trans h4.le, h2.trans h4.le, h4.le⟩
            · have h3 : ¬ q Act.R ≤ q Act.D := fun hc => hD ⟨h1, h2, hc⟩
              have h4 := not_le.1 h3
              exact ⟨h1.trans h4.le, h4.le, h2.trans h4.le⟩
          · rcases le_total (q Act.U) (q Act.L) with h2 | h2
            · have h3 : ¬ q Act.R ≤ q Act.L := fun hc => hL ⟨h2, h1.trans h2, hc⟩
              have h4 := not_le.1 h3
              exact ⟨h2.trans h4.le, (h1.trans h2).trans h4.le, h4.le⟩
            · have h3 : ¬ q Act.R ≤ q Act.U := fun hc => hU ⟨h1, h2, hc⟩
              have h4 := not_le.1 h3
              exact ⟨h4.le, h1.trans h4.le, h2.trans h4.le⟩
        have hUR : q Act.U < q Act.R := by
          rcases lt_or_le (q Act.U) (q Act.R) with h5 | h5
          · exact h5
          · exact absurd ⟨hR.2.1.trans h5, hR.2.2.trans h5, h5⟩ hU
        have hDR : q Act.D < q Act.R := by
          rcases lt_or_le (q Act.D) (q Act.R) with h5 | h5
          · exact h5
          · exact absurd ⟨hR.1.trans h5, hR.2.2.trans h5, h5⟩ hD
        have hLR : q Act.L < q Act.R := by
          rcases lt_or_le (q Act.L) (q Act.R) with h5 | h5
          · exact h5
          · exact absurd ⟨hR.1.trans h5, hR.2.1.trans h5, h5⟩ hL
        have hM : maxQof q = q Act.R := by
          rw [maxQof, max_eq_right (max_le (max_le hUR.le hDR.le) hLR.le)]
        rw [hM] at h
        simp only [argmaxFold, ACTIONS, List.foldl]
        set p1 := if (b0, x0).1 < q Act.U then (q Act.U, some Act.U) else (b0, x0) with hp1
        have hp1f : p1.1 = max b0 (q Act.U) := argmaxStep_fst q (b0, x0) Act.U
        set p2 := if p1.1 < q Act.D then (q Act.D, some Act.D) else p1 with hp2
        have hp2f : p2.1 = max p1.1 (q Act.D) := argmaxStep_fst q p1 Act.D
        set p3 := if p2.1 < q Act.L then (q Act.L, some Act.L) else p2 with hp3
        have hp3f : p3.1 = max p2.1 (q Act.L) := argmaxStep_fst q p2 Act.L
        rw [show (if p3.1 < q Act.R then (q Act.R, some Act.R) else p3) = (q Act.R, some Act.R)
          from if_pos (by rw [hp3f, hp2f, hp1f]; exact max_lt (max_lt (max_lt h hUR) hDR) hLR)]
        rw [hM, firstArgmax, if_neg hU, if_neg hD, if_neg hL]

/-- Pointwise value of a table-building loop whose per-state value does
not depend on the accumulated table: the final table holds `g s` at
every state of the list and is untouched elsewhere. -/
lemma foldl_upd_apply {α : Type} (bdy : (Coord → α) → Coord → (Coord → α))
    (g : Coord → α) (hb : ∀ f s, bdy f s = upd f s (g s)) (L : List Coord) :
    ∀ (f0 : Coord → α) (x : Coord),
      (L.foldl bdy f0) x = if x ∈ L then g x else f0 x := by
  induction L with
  | nil => intro f0 x; simp
  | cons k L ih =>
    intro f0 x
    rw [List.foldl_cons, hb, ih]
    by_cases hx : x ∈ L
    · simp [hx]
    · by_cases hk : x = k
      · simp [hx, hk, upd]
      · simp [hx, hk, upd]

lemma viSweepLoop_split (cfg : Config) (V : Coord → ℚ) (L : List Coord) :
    ∀ (f0 : Coord → ℚ) (d0 : ℚ),
      L.foldl (viBody cfg V) (f0, d0) =
        (L.foldl (fun f s => upd f s (if isTerminal s then 0 else viBest cfg V s)) f0,
         L.foldl (fun d s => if isTerminal s then d else max d |viBest cfg V s - V s|) d0) := by
  induction L with
  | nil => intro f0 d0; rfl
  | cons k L ih =>
    intro f0 d0
    rw [List.foldl_cons, List.foldl_cons, List.foldl_cons]
    by_cases h : isTerminal k
    · simp only [viBody, h, if_true]
      exact ih _ _
    · simp only [viBody, h, if_false, Bool.false_eq_true]
      exact ih _ _

lemma viSweepLoop_fst_apply (cfg : Config) (V : Coord → ℚ) (x : Coord) :
    (viSweepLoop cfg V).1 x =
      if x ∈ allStates then (if isTerminal x then 0 else viBest cfg V x) else V x := by
  rw [viSweepLoop, viSweepLoop_split]
  exact foldl_upd_apply _ (fun s => if isTerminal s then 0 else viBest cfg V s)
    (fun _ _ => rfl) allStates V x

lemma viSweepLoop_snd (cfg : Config) (V : Coord → ℚ) :
    (viSweepLoop cfg V).2 =
      allStates.foldl (fun d s => if isTerminal s then d else max d |viBest cfg V s - V s|) 0 := by
  rw [viSweepLoop, viSweepLoop_split]

lemma greedyPolicyFromV_apply (cfg : Config) (V : Coord → ℚ) (x : Coord) :
    greedyPolicyFromV cfg V x =
      if x ∈ allStates then
        (if isTerminal x then none
         else (argmaxFold (qValue cfg V x) (-1000000000) (some Act.U)).2)
      else none := by
  rw [greedyPolicyFromV]
  exact foldl_upd_apply _
    (fun s => if isTerminal s then none
      else (argmaxFold (qValue cfg V s) (-1000000000) (some Act.U)).2)
    (by intro f s; by_cases h : isTerminal s <;> simp [h]) allStates (fun _ => none) x

lemma piEvalNewV_apply (cfg : Config) (st : SolverState) (x : Coord) :
    piEvalNewV cfg st x =
      if x ∈ allStates then
        (if isTerminal x then 0 else qValue cfg st.V x ((st.piPolicy x).getD Act.U))
      else st.V x := by
  rw [piEvalNewV]
  exact foldl_upd_apply _
    (fun s => if isTerminal s then 0 else qValue cfg st.V s ((st.piPolicy s).getD Act.U))
    (by intro f s; by_cases h : isTerminal s <;> simp [h]) allStates st.V x

lemma improveFoldAux_not_mem (cfg : Config) (V : Coord → ℚ) (L : List Coord) :
    ∀ (p0 : (Coord → Option Act) × Bool) (x : Coord), x ∉ L →
      (L.foldl (improveBody cfg V) p0).1 x = p0.1 x := by
  induction L with
  | nil => intro p0 x _; rfl
  | cons k L ih =>
    intro p0 x hx
    simp only [List.mem_cons, not_or] at hx
    rw [List.foldl_cons, ih _ _ hx.2]
    by_cases h : isTerminal k
    · simp [improveBody, h]
    · simp [improveBody, h, upd, hx.1]

lemma improveFoldAux_terminal (cfg : Config) (V : Coord → ℚ) (L : List Coord) :
    ∀ (p0 : (Coord → Option Act) × Bool) (x : Coord), isTerminal x = true →
      (L.foldl (improveBody cfg V) p0).1 x = p0.1 x := by
  induction L with
  | nil => intro p0 x _; rfl
  | cons k L ih =>
    intro p0 x hx
    rw [List.foldl_cons, ih _ _ hx]
    by_cases h : isTerminal k
    · simp [improveBody, h]
    · have hxk : x ≠ k := by intro he; exact h (he ▸ hx)
      simp [improveBody, h, upd, hxk]

lemma improveFoldAux_mem (cfg : Config) (V : Coord → ℚ) (L : List Coord) :
    ∀ (p0 : (Coord → Option Act) × Bool) (x : Coord), x ∈ L → isTerminal x = false →
      -1000000000 < maxQof (qValue cfg V x) →
      (L.foldl (improveBody cfg V) p0).1 x = some (firstArgmax (qValue cfg V x)) := by
  induction L with
  | nil => intro p0 x hx; exact absurd hx (List.not_mem_nil x)
  | cons k L ih =>
    intro p0 x hx hxt hq
    rw [List.foldl_cons]
    by_cases hmem : x ∈ L
    · exact ih _ _ hmem hxt hq
    · have hxk : x = k := by
        rcases List.mem_cons.1 hx with h | h
        · exact h
        · exact absurd h hmem
      rw [improveFoldAux_not_mem cfg V L _ _ hmem]
      subst hxk
      have he := argmaxFold_eq (qValue cfg V x) (-1000000000) (p0.1 x) hq
      simp [improveBody, hxt, upd, he]

/-- The sweep delta computed by skipping terminal states equals the
maximum of |newV[s] - V[s]| over the whole state list, provided the
difference is 0 at every terminal state. -/
lemma delta_fold_eq (f g : Coord → ℚ) :
    ∀ (L : List Coord),
      (∀ s ∈ L, (isTerminal s = true → f s = 0) ∧ (isTerminal s = false → f s = g s)) →
      ∀ d0 : ℚ, 0 ≤ d0 →
        L.foldl (fun d s => if isTerminal s then d else max d (g s)) d0 =
          (L.map f).foldl max d0 := by
  intro L
  induction L with
  | nil => intro _ d0 _; rfl
  | cons k L ih =>
    intro hfg d0 hd0
    rw [List.map_cons, List.foldl_cons, List.foldl_cons]
    by_cases h : isTerminal k
    · rw [if_pos h, (hfg k (List.mem_cons_self k L)).1 h, max_eq_left hd0]
      exact ih (fun s hs => hfg s (List.mem_cons_of_mem k hs)) d0 hd0
    · have h' : isTerminal k = false := by
        cases hk : isTerminal k
        · rfl
        · exact absurd hk h
      rw [if_neg h, (hfg k (List.mem_cons_self k L)).2 h']
      exact ih (fun s hs => hfg s (List.mem_cons_of_mem k hs)) (max d0 (g k))
        (hd0.trans (le_max_left d0 (g k)))

lemma valueIterationSweep_iter (cfg : Config) (st : SolverState) :
    (valueIterationSweep cfg st).iter = st.iter := rfl

lemma policyIterationStep_iter (cfg : Config) (st : SolverState) :
    (policyIterationStep cfg st).iter = st.iter := by
  cases hm : st.piMode <;> simp [policyIterationStep, hm]

lemma doOneStep_iter (cfg : Config) (algo : Algo) (st : SolverState)
    (h : (st.iter : ℤ) < cfg.maxIters) :
    (doOneStep cfg algo st).iter = st.iter + 1 := by
  rw [doOneStep.eq_def, if_neg (not_le.2 h)]
  cases algo with
  | VI =>
    dsimp only
    split
    · rfl
    · rfl
  | PI =>
    simp [policyIterationStep_iter]

/-- The body of runLoop's while loop: one doOneStep, then the two
convergence checks that clear `running` (the VI delta test and the
"status includes Converged" test). -/
def runBody (cfg : Config) (algo : Algo) (st : SolverState) : SolverState :=
  let st1 := doOneStep cfg algo st
  let st2 :=
    if algo = Algo.VI ∧ st1.lastDelta < 1 / 10000 then { st1 with running := false } else st1
  if statusIncludesConverged st2.status then { st2 with running := false } else st2

lemma runBody_iter (cfg : Config) (algo : Algo) (st : SolverState)
    (h : (st.iter : ℤ) < cfg.maxIters) :
    (runBody cfg algo st).iter = st.iter + 1 := by
  simp only [runBody]
  split_ifs <;> simp [doOneStep_iter cfg algo st h]

/-- The while loop of `runLoop`: keep stepping while `running` is set
and the iteration cap is not reached.  (The source's `await sleep(60)`
between iterations is the cooperative yield point; with no external
interleaving the loop is this pure recursion.) -/
def runLoopAux (cfg : Config) (algo : Algo) (st : SolverState) : SolverState :=
  if h : st.running = true ∧ (st.iter : ℤ) < cfg.maxIters then
    runLoopAux cfg algo (runBody cfg algo st)
  else st
termination_by (cfg.maxIters - (st.iter : ℤ)).toNat
decreasing_by
  rw [runBody_iter cfg algo st h.2]
  omega

/-- async function runLoop(): toggle semantics — when already running,
request a stop; otherwise set `running`, loop, and report the
max-iteration status when the loop left because of the cap. -/
def runLoop (cfg : Config) (algo : Algo) (st : SolverState) : SolverState :=
  if st.running then { st with running := false, status := Status.stopped }
  else
    let st1 := runLoopAux cfg algo { st with running := true, status := Status.runningLoop }
    if cfg.maxIters ≤ (st1.iter : ℤ) then { st1 with status := Status.reachedMax } else st1

/-- The configuration used by the concrete witnesses: gamma 0.9, no
slip, step reward -0.04, cap 100. -/
def cfg0 : Config := ⟨9/10, 0, -1/25, 100⟩

/-- A configuration with nonzero slip 0.2. -/
def cfgS : Config := ⟨9/10, 1/5, -1/25, 100⟩

/-- Claim C1: one Value Iteration sweep sets newV[s], for every
non-terminal (non-wall) state, to the maximum over the four actions of
Q(s,a) computed from the value function as it was at the start of the
sweep (synchronous update); terminal states are set to 0 in newV; and
the reported delta equals the maximum over all states of
|newV[s] - V[s]|.  Hypotheses: the incoming value function vanishes on
terminal states (true of every reachable value function) and each
state's best Q-value is at least the -1e9 sentinel. -/
theorem C1_value_iteration_sweep (cfg : Config) (st : SolverState)
    (hterm : ∀ s ∈ allStates, isTerminal s = true → st.V s = 0)
    (hq : ∀ s ∈ allStates, isTerminal s = false → -1000000000 ≤ maxQ cfg st.V s) :
    (∀ s ∈ allStates, isTerminal s = false →
      (valueIterationSweep cfg st).V s = maxQ cfg st.V s) ∧
    (∀ s ∈ allStates, isTerminal s = true → (valueIterationSweep cfg st).V s = 0) ∧
    (valueIterationSweep cfg st).lastDelta =
      (allStates.map fun s => |(valueIterationSweep cfg st).V s - st.V s|).foldl max 0 := by
  have hbest : ∀ s ∈ allStates, isTerminal s = false →
      viBest cfg st.V s = maxQ cfg st.V s := by
    intro s hs h
    rw [viBest, bestFold_eq, maxQ]
    exact max_eq_right (hq s hs h)
  have hVt : ∀ s ∈ allStates, isTerminal s = true → (valueIterationSweep cfg st).V s = 0 := by
    intro s hs h
    show (viSweepLoop cfg st.V).1 s = 0
    rw [viSweepLoop_fst_apply, if_pos hs, if_pos h]
  have hVn : ∀ s ∈ allStates, isTerminal s = false →
      (valueIterationSweep cfg st).V s = maxQ cfg st.V s := by
    intro s hs h
    show (viSweepLoop cfg st.V).1 s = maxQ cfg st.V s
    rw [viSweepLoop_fst_apply, if_pos hs, if_neg (by simp [h]), hbest s hs h]
  refine ⟨hVn, hVt, ?_⟩
  show (viSweepLoop cfg st.V).2 = _
  rw [viSweepLoop_snd]
  refine delta_fold_eq (fun s => |(valueIterationSweep cfg st).V s - st.V s|)
    (fun s => |viBest cfg st.V s - st.V s|) allStates ?_ 0 le_rfl
  intro s hs
  constructor
  · intro h
    show |(valueIterationSweep cfg st).V s - st.V s| = 0
    rw [hVt s hs h, hterm s hs h]
    simp
  · intro h
    show |(valueIterationSweep cfg st).V s - st.V s| = |viBest cfg st.V s - st.V s|
    rw [hVn s hs h, hbest s hs h]

/-- Witness for C1 at the reset state and concrete configuration. -/
theorem C1_value_iteration_sweep_witness :
    (∀ s ∈ allStates, isTerminal s = true → (resetAll cfg0).V s = 0) ∧
    (∀ s ∈ allStates, isTerminal s = false →
      -1000000000 ≤ maxQ cfg0 (resetAll cfg0).V s) ∧
    ((∀ s ∈ allStates, isTerminal s = false →
        (valueIterationSweep cfg0 (resetAll cfg0)).V s = maxQ cfg0 (resetAll cfg0).V s) ∧
     (∀ s ∈ allStates, isTerminal s = true →
        (valueIterationSweep cfg0 (resetAll cfg0)).V s = 0) ∧
     (valueIterationSweep cfg0 (resetAll cfg0)).lastDelta =
       (allStates.map fun s =>
         |(valueIterationSweep cfg0 (resetAll cfg0)).V s - (resetAll cfg0).V s|).foldl max 0) :=
  ⟨by with_unfolding_all decide, by with_unfolding_all decide,
   C1_value_iteration_sweep cfg0 (resetAll cfg0)
     (by with_unfolding_all decide) (by with_unfolding_all decide)⟩

/-- The other three actions, in the fixed enumeration order, written
from the specification. -/
def otherActions : Act → List Act
  | Act.U => [Act.D, Act.L, Act.R]
  | Act.D => [Act.U, Act.L, Act.R]
  | Act.L => [Act.U, Act.D, Act.R]
  | Act.R => [Act.U, Act.D, Act.L]

/-- The target cell of an action: the state plus the action's offset,
written from the specification. -/
def specMoveTarget (s : Coord) (a : Act) : Coord :=
  (s.1 + (MOVE a).1, s.2 + (MOVE a).2)

/-- The specification's outcome reward: the terminal reward of the
resulting state when it is terminal, else the configured step reward. -/
def specOutcomeReward (cfg : Config) (ns : Coord) : ℚ :=
  if isTerminal ns then terminalRewardMap ns else cfg.stepReward

/-- Claim C2: for every non-terminal state and action, the outcome list
is the intended move with probability 1-epsilon followed by the other
three actions with probability epsilon/3 each, in enumeration order,
rewards as the specification says; and the deterministic move applies
the offset, bouncing off out-of-bounds targets and walls. -/
theorem C2_transition_model (cfg : Config) :
    (∀ s : Coord, isTerminal s = false → ∀ a : Act,
      transitions cfg s a =
        ⟨1 - cfg.slip, nextStateDet s a, specOutcomeReward cfg (nextStateDet s a)⟩ ::
          (otherActions a).map (fun a2 =>
            ⟨cfg.slip / 3, nextStateDet s a2, specOutcomeReward cfg (nextStateDet s a2)⟩)) ∧
    (∀ s : Coord, isTerminal s = false → ∀ a : Act,
      nextStateDet s a =
        if inBounds (specMoveTarget s a).1 (specMoveTarget s a).2 = false ∨
           isWall (specMoveTarget s a) = true
        then s else specMoveTarget s a) := by
  constructor
  · intro s h a
    have hfilter : ACTIONS.filter (fun a2 => decide (a2 ≠ a)) = otherActions a := by
      cases a <;> rfl
    rw [transitions, if_neg (by simp [h]), hfilter]
    rfl
  · intro s h a
    rw [nextStateDet, if_neg (by simp [h])]
    by_cases h1 : inBounds (s.1 + (MOVE a).1) (s.2 + (MOVE a).2)
    · by_cases h2 : isWall (s.1 + (MOVE a).1, s.2 + (MOVE a).2)
      · simp [specMoveTarget, h1, h2]
      · simp [specMoveTarget, h1, h2]
    · simp [specMoveTarget, h1]

/-- Witness for C2 at a concrete state, action and slippery
configuration. -/
theorem C2_transition_model_witness :
    (isTerminal ((0:ℤ), (0:ℤ)) = false) ∧
    (transitions cfgS ((0:ℤ), (0:ℤ)) Act.U =
      ⟨1 - cfgS.slip, nextStateDet ((0:ℤ), (0:ℤ)) Act.U,
        specOutcomeReward cfgS (nextStateDet ((0:ℤ), (0:ℤ)) Act.U)⟩ ::
        (otherActions Act.U).map (fun a2 =>
          ⟨cfgS.slip / 3, nextStateDet ((0:ℤ), (0:ℤ)) a2,
            specOutcomeReward cfgS (nextStateDet ((0:ℤ), (0:ℤ)) a2)⟩)) ∧
    (nextStateDet ((0:ℤ), (0:ℤ)) Act.U =
      if inBounds (specMoveTarget ((0:ℤ), (0:ℤ)) Act.U).1
           (specMoveTarget ((0:ℤ), (0:ℤ)) Act.U).2 = false ∨
         isWall (specMoveTarget ((0:ℤ), (0:ℤ)) Act.U) = true
      then ((0:ℤ), (0:ℤ)) else specMoveTarget ((0:ℤ), (0:ℤ)) Act.U) :=
  ⟨by decide, (C2_transition_model cfgS).1 _ (by decide) Act.U,
   (C2_transition_model cfgS).2 _ (by decide) Act.U⟩

/-- Claim C3: in the Evaluating phase, one step performs exactly one
policy-fixed Bellman-expectation sweep (no maximization: the action
comes from the working policy), pins terminal states to 0, decrements
the remaining-sweeps counter, and switches to Improving exactly when the
counter reaches 0; the counter is (re)initialized to 10.  Hypothesis:
the counter is at least 1, as it always is while Evaluating (it starts
at 10 and the phase is left at 0). -/
theorem C3_policy_iteration_eval (cfg : Config) (st : SolverState)
    (hmode : st.piMode = PIMode.EVAL)
    (hn : 1 ≤ st.piEvalSweepsLeft) :
    (∀ s ∈ allStates, isTerminal s = false → ∀ a : Act, st.piPolicy s = some a →
      (policyIterationStep cfg st).V s = qValue cfg st.V s a) ∧
    (∀ s ∈ allStates, isTerminal s = true → (policyIterationStep cfg st).V s = 0) ∧
    (policyIterationStep cfg st).piEvalSweepsLeft = st.piEvalSweepsLeft - 1 ∧
    ((policyIterationStep cfg st).piMode = PIMode.IMPROVE ↔ st.piEvalSweepsLeft = 1) ∧
    (resetAll cfg).piEvalSweepsLeft = 10 := by
  refine ⟨?_, ?_, ?_, ?_, rfl⟩
  · intro s hs ht a ha
    simp only [policyIterationStep, hmode]
    show piEvalNewV cfg st s = qValue cfg st.V s a
    rw [piEvalNewV_apply, if_pos hs, if_neg (by simp [ht]), ha]
    rfl
  · intro s hs ht
    simp only [policyIterationStep, hmode]
    show piEvalNewV cfg st s = 0
    rw [piEvalNewV_apply, if_pos hs, if_pos ht]
  · simp only [policyIterationStep, hmode]
  · simp only [policyIterationStep, hmode]
    show (if st.piEvalSweepsLeft - 1 ≤ 0 then PIMode.IMPROVE else PIMode.EVAL) =
        PIMode.IMPROVE ↔ st.piEvalSweepsLeft = 1
    constructor
    · intro h
      by_cases hc : st.piEvalSweepsLeft - 1 ≤ 0
      · omega
      · rw [if_neg hc] at h
        exact absurd h (by simp)
    · intro h
      rw [h]
      norm_num

/-- Witness for C3 at the reset state. -/
theorem C3_policy_iteration_eval_witness :
    ((resetAll cfg0).piMode = PIMode.EVAL) ∧ (1 ≤ (resetAll cfg0).piEvalSweepsLeft) ∧
    ((∀ s ∈ allStates, isTerminal s = false → ∀ a : Act,
        (resetAll cfg0).piPolicy s = some a →
        (policyIterationStep cfg0 (resetAll cfg0)).V s =
          qValue cfg0 (resetAll cfg0).V s a) ∧
     (∀ s ∈ allStates, isTerminal s = true →
        (policyIterationStep cfg0 (resetAll cfg0)).V s = 0) ∧
     (policyIterationStep cfg0 (resetAll cfg0)).piEvalSweepsLeft =
        (resetAll cfg0).piEvalSweepsLeft - 1 ∧
     ((policyIterationStep cfg0 (resetAll cfg0)).piMode = PIMode.IMPROVE ↔
        (resetAll cfg0).piEvalSweepsLeft = 1) ∧
     (resetAll cfg0).piEvalSweepsLeft = 10) :=
  ⟨rfl, by decide, C3_policy_iteration_eval cfg0 (resetAll cfg0) rfl (by decide)⟩

/-- Claim C6: for every terminal state and action, the outcome list is
exactly [(1.0, same state, 0.0)] and the deterministic move stays
put. -/
theorem C6_terminal_absorption (cfg : Config) (s : Coord) (a : Act)
    (h : isTerminal s = true) :
    transitions cfg s a = [⟨1, s, 0⟩] ∧ nextStateDet s a = s := by
  constructor
  · rw [transitions, if_pos h]
  · rw [nextStateDet, if_pos h]

/-- Witness for C6 at the positive terminal. -/
theorem C6_terminal_absorption_witness :
    (isTerminal ((0:ℤ), (4:ℤ)) = true) ∧
    (transitions cfgS ((0:ℤ), (4:ℤ)) Act.D = [⟨1, ((0:ℤ), (4:ℤ)), 0⟩] ∧
     nextStateDet ((0:ℤ), (4:ℤ)) Act.D = ((0:ℤ), (4:ℤ))) :=
  ⟨by decide, C6_terminal_absorption cfgS ((0:ℤ), (4:ℤ)) Act.D (by decide)⟩

/-- A working policy that is greedy for the all-zero value function
under `cfg0`: R at (0,3) (which moves into the +10 terminal), U
everywhere else, no action at terminals. -/
def cexPol : Coord → Option Act := fun s =>
  if isTerminal s then none
  else if isWall s then none
  else if s = ((0:ℤ), (3:ℤ)) then some Act.R
  else some Act.U

/-- A Policy Iteration run state about to perform an improvement sweep
whose working policy is already greedy, so the sweep is stable. -/
def cexSt : SolverState :=
  { V := fun _ => 0
    policy := cexPol
    iter := 0
    lastDelta := 0
    running := true
    piPolicy := cexPol
    piMode := PIMode.IMPROVE
    piEvalSweepsLeft := 0
    status := Status.runningLoop }

/-- Claim C5: greedy policy extraction and the Policy Iteration
improvement sweep both select, for every non-terminal state, the first
action in the enumeration order {U, D, L, R} whose Q-value is at least
every other action's; terminal states map to no action (extraction
writes null, improvement skips them).  Hypothesis for the argmax parts:
the state's best Q-value beats the -1e9 sentinel. -/
theorem C5_greedy_tie_break (cfg : Config) (V : Coord → ℚ) (st : SolverState)
    (hmode : st.piMode = PIMode.IMPROVE) :
    (∀ s ∈ allStates, isTerminal s = false → -1000000000 < maxQ cfg V s →
      greedyPolicyFromV cfg V s = some (firstArgmax (qValue cfg V s))) ∧
    (∀ s ∈ allStates, isTerminal s = true → greedyPolicyFromV cfg V s = none) ∧
    (∀ s ∈ allStates, isTerminal s = false → -1000000000 < maxQ cfg st.V s →
      (policyIterationStep cfg st).piPolicy s = some (firstArgmax (qValue cfg st.V s))) ∧
    (∀ s ∈ allStates, isTerminal s = true →
      (policyIterationStep cfg st).piPolicy s = st.piPolicy s) := by
  refine ⟨?_, ?_, ?_, ?_⟩
  · intro s hs ht hq
    rw [greedyPolicyFromV_apply, if_pos hs, if_neg (by simp [ht]),
      argmaxFold_eq (qValue cfg V s) (-1000000000) (some Act.U) hq]
  · intro s hs ht
    rw [greedyPolicyFromV_apply, if_pos hs, if_pos ht]
  · intro s hs ht hq
    simp only [policyIterationStep, hmode]
    show (improveFold cfg st).1 s = some (firstArgmax (qValue cfg st.V s))
    exact improveFoldAux_mem cfg st.V allStates (st.piPolicy, true) s hs ht hq
  · intro s hs ht
    simp only [policyIterationStep, hmode]
    show (improveFold cfg st).1 s = st.piPolicy s
    exact improveFoldAux_terminal cfg st.V allStates (st.piPolicy, true) s ht

/-- Witness for C5 at concrete states: policy extraction and an
improvement sweep at (0,0), extraction at the terminal (0,4). -/
theorem C5_greedy_tie_break_witness :
    (isTerminal ((0:ℤ), (0:ℤ)) = false) ∧
    (-1000000000 < maxQ cfg0 (fun _ => 0) ((0:ℤ), (0:ℤ))) ∧
    (cexSt.piMode = PIMode.IMPROVE) ∧
    greedyPolicyFromV cfg0 (fun _ => 0) ((0:ℤ), (0:ℤ)) =
      some (firstArgmax (qValue cfg0 (fun _ => 0) ((0:ℤ), (0:ℤ)))) ∧
    greedyPolicyFromV cfg0 (fun _ => 0) ((0:ℤ), (4:ℤ)) = none ∧
    (policyIterationStep cfg0 cexSt).piPolicy ((0:ℤ), (0:ℤ)) =
      some (firstArgmax (qValue cfg0 cexSt.V ((0:ℤ), (0:ℤ)))) :=
  ⟨by decide, by with_unfolding_all decide, rfl,
   (C5_greedy_tie_break cfg0 (fun _ => 0) cexSt rfl).1 ((0:ℤ), (0:ℤ)) (by decide)
     (by decide) (by with_unfolding_all decide),
   (C5_greedy_tie_break cfg0 (fun _ => 0) cexSt rfl).2.1 ((0:ℤ), (4:ℤ)) (by decide)
     (by decide),
   (C5_greedy_tie_break cfg0 (fun _ => 0) cexSt rfl).2.2.1 ((0:ℤ), (0:ℤ)) (by decide)
     (by decide) (by with_unfolding_all decide)⟩

/-- Claim C10: after every (non-guarded) Value Iteration step, the
published policy is exactly the greedy policy extracted from the value
function that the same sweep just produced, with the
first-in-enumeration-order tie-break. -/
theorem C10_vi_publishes_greedy (cfg : Config) (st : SolverState)
    (h : (st.iter : ℤ) < cfg.maxIters) :
    (doOneStep cfg Algo.VI st).policy =
      greedyPolicyFromV cfg (doOneStep cfg Algo.VI st).V ∧
    (∀ s ∈ allStates, isTerminal s = false →
      -1000000000 < maxQ cfg (doOneStep cfg Algo.VI st).V s →
      (doOneStep cfg Algo.VI st).policy s =
        some (firstArgmax (qValue cfg (doOneStep cfg Algo.VI st).V s))) := by
  have hVP : (doOneStep cfg Algo.VI st).policy =
      greedyPolicyFromV cfg (doOneStep cfg Algo.VI st).V := by
    rw [doOneStep.eq_def, if_neg (not_le.2 h)]
    dsimp only
    split
    · rfl
    · rfl
  refine ⟨hVP, ?_⟩
  intro s hs ht hq
  rw [hVP, greedyPolicyFromV_apply, if_pos hs, if_neg (by simp [ht]),
    argmaxFold_eq (qValue cfg (doOneStep cfg Algo.VI st).V s) (-1000000000) (some Act.U) hq]

/-- Witness for C10: one VI step from reset. -/
theorem C10_vi_publishes_greedy_witness :
    (((resetAll cfg0).iter : ℤ) < cfg0.maxIters) ∧
    (doOneStep cfg0 Algo.VI (resetAll cfg0)).policy =
      greedyPolicyFromV cfg0 (doOneStep cfg0 Algo.VI (resetAll cfg0)).V ∧
    (doOneStep cfg0 Algo.VI (resetAll cfg0)).policy ((0:ℤ), (0:ℤ)) =
      some (firstArgmax (qValue cfg0 (doOneStep cfg0 Algo.VI (resetAll cfg0)).V ((0:ℤ), (0:ℤ)))) :=
  ⟨by decide,
   (C10_vi_publishes_greedy cfg0 (resetAll cfg0) (by decide)).1,
   (C10_vi_publishes_greedy cfg0 (resetAll cfg0) (by decide)).2 ((0:ℤ), (0:ℤ)) (by decide)
     (by decide) (by with_unfolding_all decide)⟩

/-- Counterexample to claim C4 as stated: from a state whose improvement
sweep is stable, the step reports Converged and clears `running` — but
the very next step() call is not guarded: it performs an evaluation
sweep that modifies the value function (the step() guard only checks the
iteration cap). -/
theorem C4_counterexample :
    (improveFold cfg0 cexSt).2 = true ∧
    (doOneStep cfg0 Algo.PI cexSt).status = Status.convergedPolicy ∧
    (doOneStep cfg0 Algo.PI cexSt).running = false ∧
    (doOneStep cfg0 Algo.PI (doOneStep cfg0 Algo.PI cexSt)).V ((0:ℤ), (3:ℤ)) ≠
      (doOneStep cfg0 Algo.PI cexSt).V ((0:ℤ), (3:ℤ)) := by
  with_unfolding_all decide

/-- Claim C4 (amended): when the improvement sweep changes no action
(stable), the status becomes Converged and `running` is cleared, so the
run loop stops advancing; when it is not stable the status reports the
improvement and `running` is untouched.  In BOTH cases the engine
transitions back to Evaluating with the counter reset to 10 and the
value function unchanged, and subsequent step() calls are not guarded by
the Converged status (see the counterexample); only the run loop stops
(`runLoopAux` is the identity once `running` is false). -/
theorem C4_pi_convergence (cfg : Config) (algo : Algo) (st : SolverState)
    (hmode : st.piMode = PIMode.IMPROVE) :
    ((improveFold cfg st).2 = true →
      (policyIterationStep cfg st).status = Status.convergedPolicy ∧
      (policyIterationStep cfg st).running = false) ∧
    ((improveFold cfg st).2 = false →
      (policyIterationStep cfg st).status = Status.piImproved ∧
      (policyIterationStep cfg st).running = st.running) ∧
    (policyIterationStep cfg st).piMode = PIMode.EVAL ∧
    (policyIterationStep cfg st).piEvalSweepsLeft = 10 ∧
    (policyIterationStep cfg st).V = st.V ∧
    (∀ u : SolverState, u.running = false → runLoopAux cfg algo u = u) := by
  refine ⟨?_, ?_, ?_, ?_, ?_, ?_⟩
  · intro hst
    simp [policyIterationStep, hmode, hst]
  · intro hst
    simp [policyIterationStep, hmode, hst]
  · simp [policyIterationStep, hmode]
  · simp [policyIterationStep, hmode]
  · simp [policyIterationStep, hmode]
  · intro u hu
    rw [runLoopAux, dif_neg (by simp [hu])]

/-- Witness for C4 (amended) at the concrete stable state. -/
theorem C4_pi_convergence_witness :
    (cexSt.piMode = PIMode.IMPROVE) ∧
    ((improveFold cfg0 cexSt).2 = true) ∧
    ((policyIterationStep cfg0 cexSt).status = Status.convergedPolicy ∧
     (policyIterationStep cfg0 cexSt).running = false) ∧
    (policyIterationStep cfg0 cexSt).piMode = PIMode.EVAL ∧
    (policyIterationStep cfg0 cexSt).piEvalSweepsLeft = 10 :=
  ⟨rfl, by with_unfolding_all decide,
   (C4_pi_convergence cfg0 Algo.PI cexSt rfl).1 (by with_unfolding_all decide),
   (C4_pi_convergence cfg0 Algo.PI cexSt rfl).2.2.1,
   (C4_pi_convergence cfg0 Algo.PI cexSt rfl).2.2.2.1⟩

/-- The configuration with max-iteration cap K = 1. -/
def cfg1 : Config := ⟨9/10, 0, -1/25, 1⟩

/-- Counterexample to claim C7 as stated: with cap K = 1, after K = 1
calls to step() the status is the ordinary step status, NOT
MaxIterationsReached — that status first appears on the (K+1)-th call,
which is the guarded no-op. -/
theorem C7_counterexample :
    (doOneStep cfg1 Algo.PI (resetAll cfg1)).iter = 1 ∧
    (doOneStep cfg1 Algo.PI (resetAll cfg1)).status = Status.runningPIStepEval ∧
    (doOneStep cfg1 Algo.PI (resetAll cfg1)).status ≠ Status.reachedMax := by
  with_unfolding_all decide

/-- Claim C7 (amended): once the iteration counter has reached the cap,
every further step() call is a guarded no-op: it reports
MaxIterationsReached and leaves the whole solver state — value function,
policy, iteration counter and all — unchanged (so repeated calls keep
reporting the same status rather than failing); the status first reads
MaxIterationsReached on the (K+1)-th call, not after the K-th. -/
theorem C7_max_iteration_guard (cfg : Config) (algo : Algo) (st : SolverState)
    (h : cfg.maxIters ≤ (st.iter : ℤ)) :
    doOneStep cfg algo st = { st with status := Status.reachedMax } := by
  rw [doOneStep.eq_def, if_pos h]

/-- Witness for C7 (amended): the second step() call under cap 1. -/
theorem C7_max_iteration_guard_witness :
    (cfg1.maxIters ≤ ((doOneStep cfg1 Algo.PI (resetAll cfg1)).iter : ℤ)) ∧
    doOneStep cfg1 Algo.PI (doOneStep cfg1 Algo.PI (resetAll cfg1)) =
      { doOneStep cfg1 Algo.PI (resetAll cfg1) with status := Status.reachedMax } :=
  ⟨by with_unfolding_all decide,
   C7_max_iteration_guard cfg1 Algo.PI _ (by with_unfolding_all decide)⟩

/-- An invalid configuration in the sense of claim C8: gamma = 2 is
outside [0,1]. -/
def cfgBad : Config := ⟨2, 0, -1/25, 100⟩

/-- A state with a nonzero value at (0,3), as produced by earlier
sweeps. -/
def stBad : SolverState :=
  { resetAll cfgBad with
    V := fun s => if s = ((0:ℤ), (3:ℤ)) then 10 else 0
    iter := 1 }

/-- Counterexample to claim C8 as stated: no configuration validation
exists.  With gamma = 2 (outside [0,1]) the reset succeeds with status
Ready — identical to a reset under a valid configuration, with the
solver state (re)initialized rather than left unchanged — and the next
sweep runs normally, using the out-of-range gamma as-is: the Q-value
backed up through (0,3) becomes -1/25 + 2·10 = 499/25. -/
theorem C8_counterexample :
    (resetAll cfgBad).status = Status.ready ∧
    resetAll cfgBad = resetAll cfg0 ∧
    (doOneStep cfgBad Algo.VI stBad).status = Status.runningVIStep ∧
    (doOneStep cfgBad Algo.VI stBad).V ((0:ℤ), (2:ℤ)) = 499/25 := by
  refine ⟨rfl, rfl, ?_, ?_⟩
  · with_unfolding_all decide
  · with_unfolding_all decide

/-- Claim C8 (amended): the code performs no configuration validation at
all.  resetAll reads no configuration input and always reinitializes the
solver with status Ready; there is no InvalidConfiguration error
anywhere.  A non-positive max-iteration cap is not rejected either — it
merely makes every step() from reset a guarded no-op reporting
MaxIterationsReached; out-of-range gamma/epsilon are used as-is by the
sweeps. -/
theorem C8_no_validation (cfg : Config) (algo : Algo) (h : cfg.maxIters ≤ 0) :
    (resetAll cfg).status = Status.ready ∧
    doOneStep cfg algo (resetAll cfg) = { resetAll cfg with status := Status.reachedMax } := by
  refine ⟨rfl, ?_⟩
  rw [doOneStep.eq_def, if_pos]
  exact h.trans (by norm_num)

/-- Witness for C8 (amended) at a configuration violating all the bounds
the specification says are validated. -/
theorem C8_no_validation_witness :
    ((⟨2, 3/2, -1/25, 0⟩ : Config).maxIters ≤ 0) ∧
    ((resetAll ⟨2, 3/2, -1/25, 0⟩).status = Status.ready ∧
     doOneStep ⟨2, 3/2, -1/25, 0⟩ Algo.VI (resetAll ⟨2, 3/2, -1/25, 0⟩) =
       { resetAll ⟨2, 3/2, -1/25, 0⟩ with status := Status.reachedMax }) :=
  ⟨by decide, C8_no_validation ⟨2, 3/2, -1/25, 0⟩ Algo.VI (by decide)⟩

/-- The same reset-time configuration as cfg0 except that gamma has been
moved to 0.5 — modelling a mid-run slider change. -/
def cfgHalf : Config := ⟨1/2, 0, -1/25, 100⟩

/-- Counterexample to claim C9 as stated: two runs from the same
reset-time configuration cfg0 do NOT produce identical value functions
when a configuration input changes mid-run.  The second step reads the
slider values afresh: with gamma changed to 1/2 it yields a different
value at (0,2) than the run whose gamma stayed 0.9. -/
theorem C9_counterexample :
    (doOneStep cfgHalf Algo.PI (doOneStep cfg0 Algo.PI (resetAll cfg0))).V ((0:ℤ), (2:ℤ)) ≠
      (doOneStep cfg0 Algo.PI (doOneStep cfg0 Algo.PI (resetAll cfg0))).V ((0:ℤ), (2:ℤ)) := by
  with_unfolding_all decide

/-- Claim C9 (amended): configuration is NOT captured at reset.
resetAll reads no configuration input (all configurations produce the
identical reset state), and every sweep reads gamma, epsilon, step
reward and the cap from the current input values at the moment it runs,
so a mid-run change takes effect on the very next step without a reset:
after the same first step, the second step yields -1/25 + gamma·10 at
(0,2) for whichever gamma is in effect then (124/25 for gamma = 1/2,
224/25 for gamma = 9/10). -/
theorem C9_config_read_per_step :
    (∀ c c2 : Config, resetAll c = resetAll c2) ∧
    (doOneStep cfgHalf Algo.PI (doOneStep cfg0 Algo.PI (resetAll cfg0))).V ((0:ℤ), (2:ℤ)) =
      124/25 ∧
    (doOneStep cfg0 Algo.PI (doOneStep cfg0 Algo.PI (resetAll cfg0))).V ((0:ℤ), (2:ℤ)) =
      224/25 :=
  ⟨fun _ _ => rfl, by with_unfolding_all decide, by with_unfolding_all decide⟩

